import Mathlib

/-!
# FOC lead-bridge: verification of the specification against the source

Shallow embedding of the FOC multi-zone lead bridge.  The authoritative
implementation is `src/foc-bridge/server.js` (the multi-zone variant); the
bounded Failure Ledger (`addToRefundLog`) lives in `src/unnamed/part_000`.
Each definition below is translated from the corresponding JavaScript
function; strings, list order and branch structure follow the source.
-/

namespace FOC

/-- A raw lead record as posted by the partner.  Fields mirror the keys of
the Joi schema in `server.js` (lines 31-39); every field is optional at the
wire level (`none` models an absent/`null` JS field).  `student_contact`
holds the value after JavaScript `toString()` (the schema accepts a string
or a number; both are strings once `toString()` has run). -/
structure RawLead where
  student_name : Option String
  student_email : Option String
  student_contact : Option String
  student_city : Option String
  interested_city : Option String
  interested_course : Option String
  medium : Option String
deriving Repr, DecidableEq

/-- The validated value produced by `leadSchema.validate` on success
(`value` in the source), with the Joi default applied to `medium`. -/
structure LeadValue where
  student_name : String
  student_email : Option String
  student_contact : String
  student_city : Option String
  interested_city : Option String
  interested_course : Option String
  medium : String
deriving Repr, DecidableEq

/-- Model of Joi's `.email()` format test: one `@`, non-empty local part,
non-empty domain containing a dot with non-empty labels.  This abstracts
Joi's built-in email grammar; no claim below depends on its exact
extension (every concrete input used has an absent email). -/
def emailOk (s : String) : Bool :=
  match s.splitOn "@" with
  | [u, d] =>
      !u.isEmpty && !d.isEmpty && d.contains '.'
        && (d.splitOn ".").all (fun p => !p.isEmpty)
  | _ => false

/-- `leadSchema.validate(lead)` from `server.js` lines 31-39, Joi
semantics with `abortEarly` (first failing key, in schema key order).
Checks: `student_name` required string of length at least 2 (note: the
multi-zone `server.js` schema has no `.trim()`), `student_email` optional
but must be a valid address when present and non-empty, `student_contact`
required (any string or number is accepted), the city/course fields are
free-form optional, and `medium` defaults to `"COLLEGEDUNIA"` (a present
empty `medium` fails Joi's non-empty-string rule). -/
def validateLead (r : RawLead) : Except String LeadValue :=
  match r.student_name with
  | none => .error "\"student_name\" is required"
  | some n =>
    if n.length < 2 then
      .error "\"student_name\" length must be at least 2 characters long"
    else
      match r.student_email with
      | some e =>
        if e ≠ "" && !emailOk e then
          .error "\"student_email\" must be a valid email"
        else
          match r.student_contact with
          | none => .error "\"student_contact\" is required"
          | some c =>
            match r.medium with
            | some m =>
              if m = "" then .error "\"medium\" is not allowed to be empty"
              else .ok ⟨n, some e, c, r.student_city, r.interested_city,
                        r.interested_course, m⟩
            | none => .ok ⟨n, some e, c, r.student_city, r.interested_city,
                           r.interested_course, "COLLEGEDUNIA"⟩
      | none =>
          match r.student_contact with
          | none => .error "\"student_contact\" is required"
          | some c =>
            match r.medium with
            | some m =>
              if m = "" then .error "\"medium\" is not allowed to be empty"
              else .ok ⟨n, none, c, r.student_city, r.interested_city,
                        r.interested_course, m⟩
            | none => .ok ⟨n, none, c, r.student_city, r.interested_city,
                           r.interested_course, "COLLEGEDUNIA"⟩

/-- `value.student_contact.toString().replace(/\D/g, '')` — remove every
non-digit character. -/
def stripNonDigits (s : String) : String :=
  String.mk (s.data.filter fun c => c.isDigit)

/-- JavaScript `s.slice(-10)`: the last 10 characters of `s` (all of `s`
when it is shorter).  `slice(-10)` starts at `max(length - 10, 0)`, which
is exactly truncated natural subtraction. -/
def sliceLast10 (s : String) : String :=
  String.mk (s.data.drop (s.data.length - 10))

/-- `server.js` line 93: the canonical mobile key,
`contact.toString().replace(/\D/g, '').slice(-10)`. -/
def normalizeContact (s : String) : String :=
  sliceLast10 (stripNonDigits s)

/-- Spec-side phrasing of C2 ("the last 10 digits of the stripped digit
string"), written independently of the code's `slice` arithmetic: keep the
digits, reverse, take ten, reverse back. -/
def lastTenDigitsSpec (s : String) : String :=
  String.mk (((s.data.filter fun c => c.isDigit).reverse.take 10).reverse)

/-- An entry of the multi-zone server's `refundLog`
(`{ ...lead, zone, reason }`, `server.js` lines 89, 97, 119-123). -/
structure ServerEntry where
  data : RawLead
  zone : String
  reason : String
deriving Repr, DecidableEq

/-- Build a `refundLog` entry as `server.js` does. -/
def mkEntry (lead : RawLead) (zone reason : String) : ServerEntry :=
  ⟨lead, zone, reason⟩

/-- An axios error's `err.response`: its HTTP status, the truthiness of
`err.response.data` (`part_000` line 131 branches on it; falsy covers an
absent, `null`, empty-string, `0` or `false` body), and
`JSON.stringify(err.response.data)`, the serialized body (`server.js`
line 118 stringifies the data unconditionally). -/
structure HttpResp where
  status : Nat
  dataTruthy : Bool
  body : String
deriving Repr, DecidableEq

/-- Outcome of one outbound `axios.post`: delivered (2xx), or a thrown
error carrying an optional response (absent on timeout / connection
failure) and the error message `err.message`. -/
inductive SendOutcome where
  | delivered
  | failed (resp : Option HttpResp) (msg : String)
deriving Repr, DecidableEq

/-- Boolean list-prefix test (structural, used for substring search). -/
def isPrefixChars : List Char → List Char → Bool
  | [], _ => true
  | _ :: _, [] => false
  | a :: as, b :: bs => a == b && isPrefixChars as bs

/-- Substring search: does `pat` occur contiguously in the second list? -/
def hasSub (pat : List Char) : List Char → Bool
  | [] => isPrefixChars pat []
  | c :: rest => isPrefixChars pat (c :: rest) || hasSub pat rest

/-- JavaScript `toLowerCase()`, modelled character-wise (ASCII case
mapping; the substrings compared here are ASCII). -/
def jsToLower (s : String) : String :=
  String.mk (s.data.map Char.toLower)

/-- `s.toLowerCase().includes("duplicate")`. -/
def lowerHasDup (s : String) : Bool :=
  hasSub "duplicate".data (jsToLower s).data

/-- Failure classification of `server.js` lines 117-123:
`err.response && (status === 409 || stringify(data).includes("duplicate"))`
is a CRM duplicate, anything else is logged as an error with
`err.message`. -/
def classifyServer (resp : Option HttpResp) (msg : String) : String :=
  match resp with
  | some r =>
      if r.status == 409 || lowerHasDup r.body then "Duplicate in CRM"
      else "Error: " ++ msg
  | none => "Error: " ++ msg

/-- `part_000` line 131: `err.response?.data ? JSON.stringify(...) :
err.message` — the serialized body only when the response is present AND
its `data` is truthy; the error message otherwise (also for a present
response with a falsy/empty body). -/
def refundErrorMsg (resp : Option HttpResp) (msg : String) : String :=
  match resp with
  | some r => if r.dataTruthy then r.body else msg
  | none => msg

/-- Failure classification of `part_000` lines 130-134: the duplicate
substring test runs on `errorMsg` (body when a response is present,
otherwise the error message), `||` a 409 status; otherwise the entry reason
is `External Error: <errorMsg>`. -/
def classifyRefund (resp : Option HttpResp) (msg : String) : String :=
  let errorMsg := refundErrorMsg resp msg
  let statusIs409 := match resp with
    | some r => r.status == 409
    | none => false
  if lowerHasDup errorMsg || statusIs409 then "Duplicate in CRM"
  else "External Error: " ++ errorMsg

/-- The JSON body of one outbound `axios.post` (`server.js` lines
103-112). -/
structure Payload where
  name : String
  mobile : String
  email : String
  interested_course : Option String
  student_city : Option String
  interested_city : Option String
  source : String
  medium : String
deriving Repr, DecidableEq

/-- State of one `processZoneBatch` run: the `seenInBatch` set (insertion
order list), the global `refundLog`, and the sequence of outbound
`axios.post` payload calls made so far. -/
structure BatchState where
  seen : List String
  log : List ServerEntry
  sent : List Payload
deriving Repr, DecidableEq

/-- `value.student_email || "no-email@foc.com"` and the rest of the
outbound payload (`server.js` lines 103-112).  JavaScript `||` treats the
empty string and `null`/`undefined` as falsy. -/
def mkPayload (zoneKey : String) (v : LeadValue) (mobile : String) : Payload where
  name := v.student_name
  mobile := mobile
  email := match v.student_email with
    | some e => if e = "" then "no-email@foc.com" else e
    | none => "no-email@foc.com"
  interested_course := v.interested_course
  student_city := v.student_city
  interested_city := v.interested_city
  source := zoneKey.toUpper
  medium := v.medium

/-- One iteration of the `for (const lead of leads)` loop of
`processZoneBatch` (`server.js` lines 86-125).  `net` is the external CRM:
it maps the index of an outbound call (the number of calls already made)
to its outcome.  A failed call still counts as an outbound call (`sent`
records every `axios.post` issued, delivered or not). -/
def processStep (zoneKey : String) (net : Nat → SendOutcome)
    (st : BatchState) (lead : RawLead) : BatchState :=
  match validateLead lead with
  | .error msg =>
      { st with log := st.log ++ [mkEntry lead zoneKey ("Validation: " ++ msg)] }
  | .ok v =>
    let mobile := normalizeContact v.student_contact
    if st.seen.contains mobile then
      { st with log := st.log ++ [mkEntry lead zoneKey "Duplicate in file"] }
    else
      let payload := mkPayload zoneKey v mobile
      match net st.sent.length with
      | .delivered =>
          { st with seen := st.seen ++ [mobile], sent := st.sent ++ [payload] }
      | .failed resp msg =>
          { st with seen := st.seen ++ [mobile], sent := st.sent ++ [payload],
                    log := st.log ++ [mkEntry lead zoneKey (classifyServer resp msg)] }

/-- `processZoneBatch(leads, zoneKey)` (`server.js` lines 82-126): a fresh
`seenInBatch` set, the pre-existing global `refundLog` (`log0`), and no
calls made yet. -/
def processZoneBatch (leads : List RawLead) (zoneKey : String)
    (net : Nat → SendOutcome) (log0 : List ServerEntry) : BatchState :=
  leads.foldl (processStep zoneKey net) ⟨[], log0, []⟩

/-- The canonical contact key of a raw lead, defined (per §4.5 of the
design: normalize first, then compute the key) only when validation
succeeds. -/
def keyOf (l : RawLead) : Option String :=
  match validateLead l with
  | .ok v => some (normalizeContact v.student_contact)
  | .error _ => none

/-- The payload `processZoneBatch` would send for a raw lead (defined when
the lead validates). -/
def payloadOf (zoneKey : String) (l : RawLead) : Option Payload :=
  match validateLead l with
  | .ok v => some (mkPayload zoneKey v (normalizeContact v.student_contact))
  | .error _ => none

/-- An entry of the bounded refund log of `part_000`
(`{timestamp, zone, reason, data}`, lines 140-145). -/
structure LedgerEntry where
  timestamp : String
  zone : String
  reason : String
  data : RawLead
deriving Repr, DecidableEq

/-- `addToRefundLog` (`part_000` lines 139-148): push to the end, then
`if (refundLog.length > 1000) refundLog.shift()` — evict the front
element when the cap of 1000 is exceeded. -/
def addToRefundLog (log : List LedgerEntry) (e : LedgerEntry) : List LedgerEntry :=
  if (log ++ [e]).length > 1000 then (log ++ [e]).tail else log ++ [e]

/-- A JavaScript value as it appears in a log entry: a string, or a nested
object given as an ordered key/value list. -/
inductive JVal where
  | str (s : String)
  | obj (fields : List (String × JVal))

/-- One optional field of a JS object literal: absent fields produce no
key. -/
def optField (k : String) : Option String → List (String × JVal)
  | none => []
  | some s => [(k, JVal.str s)]

/-- The raw lead as a JS object (keys in schema order; absent fields are
missing keys). -/
def RawLead.toObj (r : RawLead) : List (String × JVal) :=
  optField "student_name" r.student_name ++ optField "student_email" r.student_email
    ++ optField "student_contact" r.student_contact
    ++ optField "student_city" r.student_city
    ++ optField "interested_city" r.interested_city
    ++ optField "interested_course" r.interested_course
    ++ optField "medium" r.medium

/-- The multi-zone server's ledger entry as a JS object:
`{ ...lead, zone, reason }` spreads the raw lead's keys first, then adds
`zone` and `reason` (none of the schema keys collide with these, so
append order equals JS override order). -/
def ServerEntry.toObj (e : ServerEntry) : List (String × JVal) :=
  RawLead.toObj e.data ++ [("zone", JVal.str e.zone), ("reason", JVal.str e.reason)]

/-- The `part_000` ledger entry as a JS object (`part_000` lines
140-145). -/
def LedgerEntry.toObj (e : LedgerEntry) : List (String × JVal) :=
  [("timestamp", JVal.str e.timestamp), ("zone", JVal.str e.zone),
   ("reason", JVal.str e.reason), ("data", JVal.obj (RawLead.toObj e.data))]

/-- Does the object have a key? -/
def hasKey (o : List (String × JVal)) (k : String) : Bool :=
  o.any fun p => p.1 == k

/-- First-match key lookup (our objects never repeat a key, so this is the
JS field access). -/
def getKey (o : List (String × JVal)) (k : String) : Option JVal :=
  match o with
  | [] => none
  | (k2, v) :: rest => if k2 == k then some v else getKey rest k

/-- A zone's display name and forwarding endpoint (`server.js` lines
18-27). -/
structure ZoneConfig where
  name : String
  url : String
deriving Repr, DecidableEq

/-- `ZONE_MAP` from `server.js` lines 18-27. -/
def ZONE_MAP (k : String) : Option ZoneConfig :=
  if k == "central" then
    some ⟨"Central Zone",
      "https://15dcccc1-084b-492a-8444-28992cd90433.neodove.com/integration/custom/e37b53e9-d4a4-45ad-9229-cf808235f1fa/leads"⟩
  else if k == "south" then
    some ⟨"South Zone",
      "https://15dcccc1-084b-492a-8444-28992cd90433.neodove.com/integration/custom/31814184-5242-467a-817f-c1770d451110/leads"⟩
  else none

/-- The request body: a single lead object or an array
(`Array.isArray(req.body) ? req.body : [req.body]`). -/
inductive ReqBody where
  | single (lead : RawLead)
  | array (leads : List RawLead)
deriving Repr, DecidableEq

/-- `Array.isArray(req.body) ? req.body : [req.body]`
(`server.js` line 68). -/
def ReqBody.toList : ReqBody → List RawLead
  | .single l => [l]
  | .array ls => ls

/-- The synchronous HTTP reply of `POST /api/leads/:zone`. -/
inductive Reply where
  | unauthorized
  | zoneNotFound
  | accepted (zoneName : String) (count : Nat)
deriving Repr, DecidableEq

/-- Result of one inbound submission: the synchronous reply, the
`refundLog` after the detached batch task has completed, and the outbound
calls it made. -/
structure HandlerResult where
  reply : Reply
  log : List ServerEntry
  sent : List Payload
deriving Repr, DecidableEq

/-- `app.post('/api/leads/:zone')` (`server.js` lines 61-80): the
`x-api-key` header is compared to the configured secret, the zone is
looked up in `ZONE_MAP`, the 202 reply carries the zone display name and
`rawLeads.length`, then the batch is processed. -/
def handlePost (secret : String) (net : Nat → SendOutcome)
    (log0 : List ServerEntry) (apiKey : Option String) (zone : String)
    (body : ReqBody) : HandlerResult :=
  if apiKey ≠ some secret then ⟨.unauthorized, log0, []⟩
  else
    match ZONE_MAP zone with
    | none => ⟨.zoneNotFound, log0, []⟩
    | some cfg =>
      let rawLeads := body.toList
      let fin := processZoneBatch rawLeads zone net log0
      ⟨.accepted cfg.name rawLeads.length, fin.log, fin.sent⟩

/-- `GET /api/leads/refunds` (`server.js` lines 49-51): total count and
the full entry list. -/
def readRefunds (log : List ServerEntry) : Nat × List ServerEntry :=
  (log.length, log)

/-- `DELETE /api/leads/refunds` (`server.js` lines 54-57): reset the log
and confirm. -/
def clearRefunds (_log : List ServerEntry) : List ServerEntry × String :=
  ([], "Refund report cleared.")

/-- A CRM that accepts every call. -/
def netOk : Nat → SendOutcome := fun _ => .delivered

/-- A CRM that times out on every call (axios throws with no response). -/
def netTimeout : Nat → SendOutcome :=
  fun _ => .failed none "timeout of 5000ms exceeded"

/-- Sample valid lead (key `9876543210`). -/
def ld1 : RawLead :=
  ⟨some "A B", none, some "9876543210", none, none, none, none⟩

/-- Sample valid lead carrying the same contact in a different raw
spelling (`+91 98765-43210` also normalizes to `9876543210`). -/
def ld2 : RawLead :=
  ⟨some "C D", none, some "+91 98765-43210", none, none, none, none⟩

/-- Sample invalid lead: the required `student_name` is missing. -/
def ldNoName : RawLead :=
  ⟨none, none, some "9876543210", none, none, none, none⟩

/-- Sample lead whose contact has only 3 digits. -/
def ldShort : RawLead :=
  ⟨some "A B", none, some "123", none, none, none, none⟩

/-- Sample `part_000` ledger entries for the capacity witness. -/
def entryA : LedgerEntry :=
  ⟨"2026-01-01T00:00:00.000Z", "central", "Duplicate in CRM", ld1⟩

/-- A second sample ledger entry. -/
def entryB : LedgerEntry :=
  ⟨"2026-01-01T00:00:01.000Z", "central", "Duplicate in file", ld2⟩

/-- C2: for every raw contact whose digit content is at least 10
characters long, normalization produces exactly the last 10 digits of the
stripped digit string (so prefixes and punctuation are discarded), and
the result is a 10-character all-digit key. -/
theorem normalize_yields_last_ten_digits (s : String)
    (h : 10 ≤ (stripNonDigits s).length) :
    normalizeContact s = lastTenDigitsSpec s
    ∧ (normalizeContact s).length = 10
    ∧ ∀ c ∈ (normalizeContact s).data, c.isDigit := by
  have hlen : (stripNonDigits s).length
      = (s.data.filter fun c => c.isDigit).length := rfl
  refine ⟨?_, ?_, ?_⟩
  · show String.mk ((s.data.filter fun c => c.isDigit).drop
        ((s.data.filter fun c => c.isDigit).length - 10)) = _
    have := List.rtake_eq_reverse_take_reverse
      (s.data.filter fun c => c.isDigit) 10
    exact congrArg String.mk this
  · show ((s.data.filter fun c => c.isDigit).drop
        ((s.data.filter fun c => c.isDigit).length - 10)).length = 10
    rw [List.length_drop]
    rw [hlen] at h
    omega
  · intro c hc
    have hc2 : c ∈ s.data.filter fun c => c.isDigit :=
      List.drop_subset _ _ hc
    exact (List.mem_filter.mp hc2).2

/-- Witness for C2 at the spec's own example `"+91 98765-43210"`. -/
theorem normalize_yields_last_ten_digits_witness :
    normalizeContact "+91 98765-43210" = lastTenDigitsSpec "+91 98765-43210"
    ∧ normalizeContact "+91 98765-43210" = "9876543210" :=
  ⟨(normalize_yields_last_ten_digits "+91 98765-43210" (by decide)).1, rfl⟩

/-- C4 (amended): the `part_000` Failure Ledger append (`addToRefundLog`)
keeps the log within its cap of 1000; an append from a full log evicts
exactly the oldest (front) entry, and an append below the cap evicts
nothing.  The multi-zone `server.js`, by contrast, pushes to `refundLog`
with no cap at all (see the counterexample). -/
theorem ledger_capacity (log : List LedgerEntry) (e : LedgerEntry)
    (h : log.length ≤ 1000) :
    (addToRefundLog log e).length ≤ 1000
    ∧ (log.length = 1000 → addToRefundLog log e = log.tail ++ [e])
    ∧ (log.length < 1000 → addToRefundLog log e = log ++ [e]) := by
  have hlen : (log ++ [e]).length = log.length + 1 := by simp
  refine ⟨?_, ?_, ?_⟩
  · by_cases hc : (log ++ [e]).length > 1000
    · rw [addToRefundLog, if_pos hc]
      have := List.length_tail (log ++ [e])
      omega
    · rw [addToRefundLog, if_neg hc]
      omega
  · intro h1000
    have hc : (log ++ [e]).length > 1000 := by omega
    rw [addToRefundLog, if_pos hc]
    cases log with
    | nil => simp at h1000
    | cons a as => rfl
  · intro hlt
    have hc : ¬ (log ++ [e]).length > 1000 := by omega
    rw [addToRefundLog, if_neg hc]

/-- Witness for C4 at a full log of 1000 entries. -/
theorem ledger_capacity_witness :
    (addToRefundLog (List.replicate 1000 entryA) entryB).length ≤ 1000
    ∧ ((List.replicate 1000 entryA).length = 1000 →
        addToRefundLog (List.replicate 1000 entryA) entryB
          = (List.replicate 1000 entryA).tail ++ [entryB])
    ∧ ((List.replicate 1000 entryA).length < 1000 →
        addToRefundLog (List.replicate 1000 entryA) entryB
          = List.replicate 1000 entryA ++ [entryB]) :=
  ledger_capacity (List.replicate 1000 entryA) entryB
    (by rw [List.length_replicate])

/-- C8: clearing the Failure Ledger then reading it yields count zero and
an empty list, from every prior state; clearing twice yields the same
state and the same confirmation message as clearing once. -/
theorem clear_idempotent (log : List ServerEntry) :
    readRefunds (clearRefunds log).1 = (0, [])
    ∧ clearRefunds (clearRefunds log).1 = clearRefunds log :=
  ⟨rfl, rfl⟩

/-- C3 (code bug): `server.js` drops the 10-digit length check that every
other variant performs after cleaning (`part_001` line 61, `part_002`
line 81, `part_003` line 98) and that the design requires; a lead whose
contact is `"123"` passes the multi-zone schema and is forwarded with the
3-character mobile `"123"`, with no validation entry in the ledger. -/
theorem short_contact_forwarded_bug :
    (processZoneBatch [ldShort] "central" netOk []).sent.map (fun p => p.mobile)
        = ["123"]
    ∧ (processZoneBatch [ldShort] "central" netOk []).log = []
    ∧ ∀ p ∈ (processZoneBatch [ldShort] "central" netOk []).sent,
        p.mobile.length < 10 := by
  exact ⟨rfl, rfl, by decide⟩

/-- C7: a submission whose API key does not match the configured secret is
answered with the unauthorized reply, and a valid-key submission to a zone
absent from `ZONE_MAP` with the not-found reply; in both cases the ledger
is returned unchanged and no outbound call is made. -/
theorem auth_and_zone_rejection (secret : String) (net : Nat → SendOutcome)
    (log0 : List ServerEntry) (apiKey : Option String) (zone : String)
    (body : ReqBody) :
    (apiKey ≠ some secret →
        handlePost secret net log0 apiKey zone body = ⟨Reply.unauthorized, log0, []⟩)
    ∧ (apiKey = some secret → ZONE_MAP zone = none →
        handlePost secret net log0 apiKey zone body = ⟨Reply.zoneNotFound, log0, []⟩) := by
  constructor
  · intro h
    simp [handlePost, h]
  · intro h hz
    simp [handlePost, h, hz]

/-- Witness for C7: a missing key is rejected as unauthorized, and a valid
key with the unconfigured zone `"west"` as not found. -/
theorem auth_and_zone_rejection_witness :
    handlePost "k1" netOk [] none "central" (ReqBody.array [ld1])
        = ⟨Reply.unauthorized, [], []⟩
    ∧ handlePost "k1" netOk [] (some "k1") "west" (ReqBody.array [ld1])
        = ⟨Reply.zoneNotFound, [], []⟩ :=
  ⟨(auth_and_zone_rejection "k1" netOk [] none "central"
      (ReqBody.array [ld1])).1 (by decide),
   (auth_and_zone_rejection "k1" netOk [] (some "k1") "west"
      (ReqBody.array [ld1])).2 rfl rfl⟩

/-- C10: the accepted acknowledgment carries the length of the submitted
list (1 for a single object), independent of the network oracle and of
record-level validity — records that will later fail validation or
deduplication are still counted. -/
theorem accepted_count (secret : String) (net : Nat → SendOutcome)
    (log0 : List ServerEntry) (apiKey : Option String) (zone : String)
    (body : ReqBody) (cfg : ZoneConfig)
    (h : apiKey = some secret) (hz : ZONE_MAP zone = some cfg) :
    (handlePost secret net log0 apiKey zone body).reply
        = Reply.accepted cfg.name body.toList.length
    ∧ ∀ l, body = ReqBody.single l → body.toList.length = 1 := by
  constructor
  · simp [handlePost, h, hz]
  · intro l hl
    subst hl
    rfl

/-- Witness for C10: a single invalid lead (missing name) is still
acknowledged with count 1. -/
theorem accepted_count_witness :
    (handlePost "k1" netOk [] (some "k1") "central"
        (ReqBody.single ldNoName)).reply
      = Reply.accepted
          (ZoneConfig.mk "Central Zone"
            "https://15dcccc1-084b-492a-8444-28992cd90433.neodove.com/integration/custom/e37b53e9-d4a4-45ad-9229-cf808235f1fa/leads").name
          (ReqBody.single ldNoName).toList.length
    ∧ ∀ l, ReqBody.single ldNoName = ReqBody.single l →
        (ReqBody.single ldNoName).toList.length = 1 :=
  accepted_count "k1" netOk [] (some "k1") "central" (ReqBody.single ldNoName)
    _ rfl rfl

/-- C5 (counterexample): the multi-zone server appends ledger entries with
`{ ...lead, zone, reason }` (`server.js` line 97) — the entry appended for
the in-batch duplicate `ld2` carries no `timestamp` key, refuting the
claim that every appended entry contains a timestamp. -/
theorem entry_without_timestamp_cx :
    (processZoneBatch [ld1, ld2] "central" netOk []).log
        = [mkEntry ld2 "central" "Duplicate in file"]
    ∧ hasKey (ServerEntry.toObj (mkEntry ld2 "central" "Duplicate in file"))
        "timestamp" = false :=
  ⟨rfl, rfl⟩

set_option maxHeartbeats 4000000 in
/-- C5 (amended): entries appended through `part_000`'s `addToRefundLog`
carry a timestamp, the zone, the reason, and the original raw record
under `data`; entries appended by the multi-zone `server.js` carry the
zone, the reason and the raw record's own fields, but no timestamp. -/
theorem failure_entry_fields (e : LedgerEntry) (s : ServerEntry) :
    getKey (LedgerEntry.toObj e) "timestamp" = some (JVal.str e.timestamp)
    ∧ getKey (LedgerEntry.toObj e) "zone" = some (JVal.str e.zone)
    ∧ getKey (LedgerEntry.toObj e) "reason" = some (JVal.str e.reason)
    ∧ getKey (LedgerEntry.toObj e) "data" = some (JVal.obj (RawLead.toObj e.data))
    ∧ hasKey (ServerEntry.toObj s) "timestamp" = false
    ∧ getKey (ServerEntry.toObj s) "zone" = some (JVal.str s.zone)
    ∧ getKey (ServerEntry.toObj s) "reason" = some (JVal.str s.reason) := by
  obtain ⟨⟨n, e1, c, c1, c2, c3, m⟩, z, r⟩ := s
  refine ⟨rfl, rfl, rfl, rfl, ?_, ?_, ?_⟩ <;>
    cases n <;> cases e1 <;> cases c <;> cases c1 <;> cases c2 <;> cases c3
      <;> cases m <;> rfl

/-- C6 (counterexample): on a timeout the multi-zone server logs the
reason `Error: <err.message>` (`server.js` line 122), not the claimed
`External Error: <detail>`. -/
theorem error_label_cx :
    (processZoneBatch [ld1] "central" netTimeout []).log
        = [mkEntry ld1 "central" "Error: timeout of 5000ms exceeded"]
    ∧ isPrefixChars "External Error: ".data
        "Error: timeout of 5000ms exceeded".data = false :=
  ⟨rfl, rfl⟩

/-- C6 (amended): a response with status 409 or a serialized body
containing the case-insensitive substring `duplicate` is classified
`Duplicate in CRM` by the multi-zone server; every other failure is
logged by it as `Error: <error message>` (the error text, never the
response body).  `part_000` classifies on `errorMsg` — the serialized
body when the response carries truthy data, the error message otherwise
(also for a present response with a falsy/empty body) — logging
`Duplicate in CRM` when `errorMsg` contains `duplicate` or the status is
409 (a falsy-body 409 is still a CRM duplicate), and
`External Error: <errorMsg>` otherwise. -/
theorem sink_failure_classification (status : Nat) (dt : Bool) (body msg : String) :
    ((status = 409 ∨ lowerHasDup body = true) →
        classifyServer (some ⟨status, dt, body⟩) msg = "Duplicate in CRM")
    ∧ (status ≠ 409 → lowerHasDup body = false →
        classifyServer (some ⟨status, dt, body⟩) msg = "Error: " ++ msg)
    ∧ classifyServer none msg = "Error: " ++ msg
    ∧ ((status = 409 ∨ lowerHasDup body = true) →
        classifyRefund (some ⟨status, true, body⟩) msg = "Duplicate in CRM")
    ∧ (status ≠ 409 → lowerHasDup body = false →
        classifyRefund (some ⟨status, true, body⟩) msg
          = "External Error: " ++ body)
    ∧ (status ≠ 409 → lowerHasDup msg = false →
        classifyRefund (some ⟨status, false, body⟩) msg
          = "External Error: " ++ msg)
    ∧ classifyRefund (some ⟨409, false, body⟩) msg = "Duplicate in CRM"
    ∧ (lowerHasDup msg = false →
        classifyRefund none msg = "External Error: " ++ msg) := by
  refine ⟨?_, ?_, rfl, ?_, ?_, ?_, ?_, ?_⟩
  · rintro (h | h)
    · subst h
      simp [classifyServer]
    · simp [classifyServer, h]
  · intro h1 h2
    have hb : (status == 409) = false := beq_eq_false_iff_ne.mpr h1
    simp [classifyServer, hb, h2]
  · rintro (h | h)
    · subst h
      simp [classifyRefund, refundErrorMsg]
    · simp [classifyRefund, refundErrorMsg, h]
  · intro h1 h2
    have hb : (status == 409) = false := beq_eq_false_iff_ne.mpr h1
    simp [classifyRefund, refundErrorMsg, hb, h2]
  · intro h1 h2
    have hb : (status == 409) = false := beq_eq_false_iff_ne.mpr h1
    simp [classifyRefund, refundErrorMsg, hb, h2]
  · simp [classifyRefund, refundErrorMsg]
  · intro h
    simp [classifyRefund, refundErrorMsg, h]

/-- Witness for C6 (amended): a 409 is a CRM duplicate for the multi-zone
server; `part_000` logs a truthy-body 500 with the serialized body, an
empty-body (falsy-data) 500 with the error message, and still classifies
an empty-body 409 as a CRM duplicate. -/
theorem sink_failure_classification_witness :
    classifyServer (some ⟨409, true, "\"ok\""⟩)
        "Request failed with status code 409" = "Duplicate in CRM"
    ∧ classifyRefund (some ⟨500, true, "\"server exploded\""⟩)
        "Request failed with status code 500"
        = "External Error: \"server exploded\""
    ∧ classifyRefund (some ⟨500, false, "\"\""⟩)
        "Request failed with status code 500"
        = "External Error: Request failed with status code 500"
    ∧ classifyRefund (some ⟨409, false, "\"\""⟩)
        "Request failed with status code 409" = "Duplicate in CRM" :=
  ⟨(sink_failure_classification 409 true "\"ok\""
      "Request failed with status code 409").1 (Or.inl rfl),
   (sink_failure_classification 500 true "\"server exploded\""
      "Request failed with status code 500").2.2.2.2.1 (by decide) (by decide),
   (sink_failure_classification 500 false "\"\""
      "Request failed with status code 500").2.2.2.2.2.1 (by decide) (by decide),
   (sink_failure_classification 409 false "\"\""
      "Request failed with status code 409").2.2.2.2.2.2.1⟩

/-- Does a raw lead validate with canonical contact key `k`? -/
def keyIs (k : String) (l : RawLead) : Bool :=
  keyOf l == some k

/-- The single outbound payload the batch loop produces for key `k`:
that of the first record of the batch validating with key `k`, if any. -/
def firstKeyPayload (zoneKey k : String) (leads : List RawLead) : List Payload :=
  match leads.find? (keyIs k) with
  | some l => (payloadOf zoneKey l).toList
  | none => []

theorem keyOf_ok (l : RawLead) (k : String) (hk : keyOf l = some k) :
    ∃ v, validateLead l = .ok v ∧ normalizeContact v.student_contact = k := by
  cases hv : validateLead l with
  | error m =>
    unfold keyOf at hk
    rw [hv] at hk
    simp at hk
  | ok v =>
    unfold keyOf at hk
    rw [hv] at hk
    simp at hk
    exact ⟨v, rfl, hk⟩

theorem step_invalid (zoneKey : String) (net : Nat → SendOutcome)
    (st : BatchState) (l : RawLead) (msg : String)
    (hv : validateLead l = .error msg) :
    processStep zoneKey net st l
      = { st with log := st.log ++ [mkEntry l zoneKey ("Validation: " ++ msg)] } := by
  unfold processStep
  rw [hv]

theorem step_dup (zoneKey : String) (net : Nat → SendOutcome)
    (st : BatchState) (l : RawLead) (k : String)
    (hk : keyOf l = some k) (hs : k ∈ st.seen) :
    processStep zoneKey net st l
      = { st with log := st.log ++ [mkEntry l zoneKey "Duplicate in file"] } := by
  obtain ⟨v, hv, hkey⟩ := keyOf_ok l k hk
  simp [processStep, hv, hkey, List.contains, hs]

theorem step_new (zoneKey : String) (net : Nat → SendOutcome)
    (st : BatchState) (l : RawLead) (v : LeadValue)
    (hv : validateLead l = .ok v)
    (hs : normalizeContact v.student_contact ∉ st.seen) :
    ((processStep zoneKey net st l).seen
        = st.seen ++ [normalizeContact v.student_contact])
    ∧ ((processStep zoneKey net st l).sent
        = st.sent ++ [mkPayload zoneKey v (normalizeContact v.student_contact)])
    ∧ ∃ t, (processStep zoneKey net st l).log = st.log ++ t := by
  cases hn : net st.sent.length with
  | delivered =>
    refine ⟨?_, ?_, [], ?_⟩ <;> simp [processStep, hv, hs, hn]
  | failed resp msg =>
    refine ⟨?_, ?_, [mkEntry l zoneKey (classifyServer resp msg)], ?_⟩ <;>
      simp [processStep, hv, hs, hn]

theorem step_seen_mono (zoneKey : String) (net : Nat → SendOutcome)
    (st : BatchState) (l : RawLead) (k : String) (h : k ∈ st.seen) :
    k ∈ (processStep zoneKey net st l).seen := by
  cases hv : validateLead l with
  | error m =>
    rw [step_invalid zoneKey net st l m hv]
    exact h
  | ok v =>
    by_cases hc : normalizeContact v.student_contact ∈ st.seen
    · rw [step_dup zoneKey net st l (normalizeContact v.student_contact)
        (by unfold keyOf; rw [hv]) hc]
      exact h
    · rw [(step_new zoneKey net st l v hv hc).1]
      exact List.mem_append_left _ h

theorem step_log_mono (zoneKey : String) (net : Nat → SendOutcome)
    (st : BatchState) (l : RawLead) :
    ∃ t, (processStep zoneKey net st l).log = st.log ++ t := by
  cases hv : validateLead l with
  | error m =>
    exact ⟨_, by rw [step_invalid zoneKey net st l m hv]⟩
  | ok v =>
    by_cases hc : normalizeContact v.student_contact ∈ st.seen
    · exact ⟨_, by rw [step_dup zoneKey net st l (normalizeContact v.student_contact)
        (by unfold keyOf; rw [hv]) hc]⟩
    · exact (step_new zoneKey net st l v hv hc).2.2

theorem fold_log_mono (zoneKey : String) (net : Nat → SendOutcome)
    (leads : List RawLead) (st : BatchState) (e : ServerEntry)
    (h : e ∈ st.log) :
    e ∈ (leads.foldl (processStep zoneKey net) st).log := by
  induction leads generalizing st with
  | nil => exact h
  | cons l rest ih =>
    rw [List.foldl_cons]
    apply ih
    obtain ⟨t, ht⟩ := step_log_mono zoneKey net st l
    rw [ht]
    exact List.mem_append_left _ h

theorem fold_seen_mono (zoneKey : String) (net : Nat → SendOutcome)
    (leads : List RawLead) (st : BatchState) (k : String)
    (h : k ∈ st.seen) :
    k ∈ (leads.foldl (processStep zoneKey net) st).seen := by
  induction leads generalizing st with
  | nil => exact h
  | cons l rest ih =>
    rw [List.foldl_cons]
    exact ih _ (step_seen_mono zoneKey net st l k h)

theorem fold_seen_of_any (zoneKey : String) (net : Nat → SendOutcome)
    (leads : List RawLead) (st : BatchState) (k : String)
    (h : leads.any (keyIs k) = true) :
    k ∈ (leads.foldl (processStep zoneKey net) st).seen := by
  induction leads generalizing st with
  | nil => simp at h
  | cons l rest ih =>
    rw [List.foldl_cons]
    have h2 : (keyIs k l || rest.any (keyIs k)) = true := h
    rcases Bool.or_eq_true_iff.mp h2 with h1 | h1
    · have hk : keyOf l = some k := by simpa [keyIs] using h1
      by_cases hs : k ∈ st.seen
      · exact fold_seen_mono zoneKey net rest _ k
          (step_seen_mono zoneKey net st l k hs)
      · obtain ⟨v, hv, hkey⟩ := keyOf_ok l k hk
        apply fold_seen_mono
        rw [(step_new zoneKey net st l v hv (by rwa [hkey])).1, hkey]
        exact List.mem_append_right _ (by simp)
    · exact ih _ h1

theorem fold_sent_filter (zoneKey : String) (net : Nat → SendOutcome) (k : String)
    (leads : List RawLead) (st : BatchState) :
    ((leads.foldl (processStep zoneKey net) st).sent.filter fun p => p.mobile == k)
      = (st.sent.filter fun p => p.mobile == k)
        ++ (if k ∈ st.seen then [] else firstKeyPayload zoneKey k leads) := by
  induction leads generalizing st with
  | nil =>
    simp [firstKeyPayload]
  | cons l rest ih =>
    rw [List.foldl_cons]
    cases hkl : keyIs k l with
    | false =>
      have hfind : firstKeyPayload zoneKey k (l :: rest)
          = firstKeyPayload zoneKey k rest := by
        unfold firstKeyPayload
        rw [List.find?_cons_of_neg _ (by simp [hkl])]
      cases hv : validateLead l with
      | error m =>
        rw [step_invalid zoneKey net st l m hv] at *
        rw [ih, hfind]
      | ok v =>
        by_cases hc : normalizeContact v.student_contact ∈ st.seen
        · rw [step_dup zoneKey net st l (normalizeContact v.student_contact)
            (by unfold keyOf; rw [hv]) hc]
          rw [ih, hfind]
        · have hne : normalizeContact v.student_contact ≠ k := by
            intro he
            apply Bool.true_eq_false.mp
            rw [← hkl]
            simp [keyIs, keyOf, hv, he]
          obtain ⟨h1, h2, _⟩ := step_new zoneKey net st l v hv hc
          rw [ih, h1, h2, hfind]
          have hmem : (k ∈ st.seen ++ [normalizeContact v.student_contact])
              ↔ k ∈ st.seen := by
            simp [List.mem_append]
            intro he
            exact absurd he.symm hne
          have hpf : ((mkPayload zoneKey v
              (normalizeContact v.student_contact)).mobile == k) = false := by
            simp [mkPayload]
            exact hne
          by_cases hs : k ∈ st.seen
          · rw [if_pos hs, if_pos (hmem.mpr hs)]
            simp [List.filter_append, hpf]
          · rw [if_neg hs, if_neg (fun hx => hs (hmem.mp hx))]
            simp [List.filter_append, hpf]
    | true =>
      have hk : keyOf l = some k := by simpa [keyIs] using hkl
      obtain ⟨v, hv, hkey⟩ := keyOf_ok l k hk
      by_cases hs : k ∈ st.seen
      · rw [step_dup zoneKey net st l k hk hs, ih]
        rw [if_pos hs, if_pos hs]
      · obtain ⟨h1, h2, _⟩ := step_new zoneKey net st l v hv (by rwa [hkey])
        rw [ih, h1, h2]
        have hseen : k ∈ st.seen ++ [normalizeContact v.student_contact] := by
          rw [hkey]
          exact List.mem_append_right _ (by simp)
        rw [if_pos hseen, if_neg hs]
        have hfind : firstKeyPayload zoneKey k (l :: rest)
            = [mkPayload zoneKey v (normalizeContact v.student_contact)] := by
          unfold firstKeyPayload
          rw [List.find?_cons_of_pos _ hkl]
          simp [payloadOf, hv]
        rw [hfind]
        have hpt : ((mkPayload zoneKey v
            (normalizeContact v.student_contact)).mobile == k) = true := by
          simp [mkPayload, hkey]
        simp [List.filter_append, hpt]

/-- C1: in a batch whose first record validating with key `k` is `l`, the
outbound calls carrying key `k` are exactly the one payload built from
`l` (so exactly one network call is made for `k`, for the first
occurrence in submission order), and every subsequent record with key `k`
is appended to the ledger as a batch duplicate (`Duplicate in file`),
triggering no further call. -/
theorem batch_duplicate_single_call (leads : List RawLead) (zoneKey k : String)
    (net : Nat → SendOutcome) (log0 : List ServerEntry) (l : RawLead)
    (h : leads.find? (keyIs k) = some l) :
    ((processZoneBatch leads zoneKey net log0).sent.filter
        fun p => p.mobile == k) = (payloadOf zoneKey l).toList
    ∧ ((processZoneBatch leads zoneKey net log0).sent.filter
        fun p => p.mobile == k).length = 1
    ∧ ∀ pre l2 post, leads = pre ++ l2 :: post → keyOf l2 = some k →
        pre.any (keyIs k) = true →
        mkEntry l2 zoneKey "Duplicate in file"
          ∈ (processZoneBatch leads zoneKey net log0).log := by
  have hfilter : ((processZoneBatch leads zoneKey net log0).sent.filter
      fun p => p.mobile == k) = (payloadOf zoneKey l).toList := by
    unfold processZoneBatch
    rw [fold_sent_filter]
    simp [firstKeyPayload, h]
  refine ⟨hfilter, ?_, ?_⟩
  · rw [hfilter]
    have hk : keyOf l = some k := by
      have := List.find?_some h
      simpa [keyIs] using this
    obtain ⟨v, hv, _⟩ := keyOf_ok l k hk
    simp [payloadOf, hv]
  · intro pre l2 post hsplit hk2 hany
    subst hsplit
    unfold processZoneBatch
    rw [List.foldl_append, List.foldl_cons]
    have hs : k ∈ (pre.foldl (processStep zoneKey net) ⟨[], log0, []⟩).seen :=
      fold_seen_of_any zoneKey net pre _ k hany
    rw [step_dup zoneKey net _ l2 k hk2 hs]
    apply fold_log_mono
    exact List.mem_append_right _ (by simp)

/-- Witness for C1 at the batch `[ld1, ld2]` (both normalize to
`9876543210`) with a delivering CRM. -/
theorem batch_duplicate_single_call_witness :
    ((processZoneBatch [ld1, ld2] "central" netOk []).sent.filter
        fun p => p.mobile == "9876543210") = (payloadOf "central" ld1).toList
    ∧ ((processZoneBatch [ld1, ld2] "central" netOk []).sent.filter
        fun p => p.mobile == "9876543210").length = 1
    ∧ ∀ pre l2 post, [ld1, ld2] = pre ++ l2 :: post →
        keyOf l2 = some "9876543210" →
        pre.any (keyIs "9876543210") = true →
        mkEntry l2 "central" "Duplicate in file"
          ∈ (processZoneBatch [ld1, ld2] "central" netOk []).log :=
  batch_duplicate_single_call [ld1, ld2] "central" "9876543210" netOk [] ld1 rfl

/-- C9: the canonical key is recorded in the seen-set whatever the
forwarding outcome, so with an arbitrary CRM oracle (including one that
fails every call) a batch containing a record `l1` with key `k` and a
later record `l2` with the same key still logs `l2` as a batch duplicate
and issues exactly one outbound call for `k` — a failed first occurrence
is never retried via its duplicates. -/
theorem key_marked_seen_before_send (zoneKey k : String) (net : Nat → SendOutcome) :
    (∀ st lead v, validateLead lead = .ok v →
        normalizeContact v.student_contact = k →
        k ∈ (processStep zoneKey net st lead).seen)
    ∧ ∀ log0 pre l1 mid l2 post,
        keyOf l1 = some k → keyOf l2 = some k →
        mkEntry l2 zoneKey "Duplicate in file"
            ∈ (processZoneBatch (pre ++ l1 :: (mid ++ l2 :: post)) zoneKey net log0).log
          ∧ ((processZoneBatch (pre ++ l1 :: (mid ++ l2 :: post)) zoneKey
                net log0).sent.filter fun p => p.mobile == k).length = 1 := by
  constructor
  · intro st lead v hv hkey
    by_cases hs : k ∈ st.seen
    · exact step_seen_mono zoneKey net st lead k hs
    · rw [(step_new zoneKey net st lead v hv (by rwa [hkey])).1, hkey]
      exact List.mem_append_right _ (by simp)
  · intro log0 pre l1 mid l2 post hk1 hk2
    have hsplit : pre ++ l1 :: (mid ++ l2 :: post)
        = (pre ++ l1 :: mid) ++ l2 :: post := by
      simp
    constructor
    · rw [hsplit]
      unfold processZoneBatch
      rw [List.foldl_append, List.foldl_cons]
      have hany : (pre ++ l1 :: mid).any (keyIs k) = true := by
        simp [List.any_append, List.any_cons, keyIs, hk1]
      have hs := fold_seen_of_any zoneKey net (pre ++ l1 :: mid)
        ⟨[], log0, []⟩ k hany
      rw [step_dup zoneKey net _ l2 k hk2 hs]
      apply fold_log_mono
      exact List.mem_append_right _ (by simp)
    · obtain ⟨lf, hlf⟩ : ∃ lf,
          (pre ++ l1 :: (mid ++ l2 :: post)).find? (keyIs k) = some lf := by
        apply Option.isSome_iff_exists.mp
        rw [List.find?_isSome]
        exact ⟨l1, by simp, by simp [keyIs, hk1]⟩
      unfold processZoneBatch
      rw [fold_sent_filter]
      simp only [firstKeyPayload, hlf]
      have hkf : keyOf lf = some k := by
        have := List.find?_some hlf
        simpa [keyIs] using this
      obtain ⟨v, hv, _⟩ := keyOf_ok lf k hkf
      simp [payloadOf, hv]

theorem fold_log_length_invalid (n : Nat) (st : BatchState) :
    ((List.replicate n ldNoName).foldl (processStep "central" netOk) st).log.length
      = st.log.length + n := by
  induction n generalizing st with
  | zero => simp
  | succ m ih =>
    rw [List.replicate_succ, List.foldl_cons,
      step_invalid "central" netOk st ldNoName "\"student_name\" is required" rfl,
      ih]
    simp [List.length_append]
    omega

/-- C4 (counterexample): the multi-zone server pushes to `refundLog` with
no cap and no eviction (`server.js` lines 89, 97, 119-123): a single
batch of 1001 invalid records grows the ledger to 1001 entries, exceeding
the claimed capacity of 1000. -/
theorem server_ledger_unbounded_cx :
    1000 < (processZoneBatch (List.replicate 1001 ldNoName)
        "central" netOk []).log.length := by
  unfold processZoneBatch
  rw [fold_log_length_invalid 1001 ⟨[], [], []⟩]
  omega

/-- Witness for C9 with a CRM that times out on every call: the first
occurrence fails, the duplicate is still logged as `Duplicate in file`
and only one call is made. -/
theorem key_marked_seen_before_send_witness :
    mkEntry ld2 "central" "Duplicate in file"
        ∈ (processZoneBatch ([] ++ ld1 :: ([] ++ ld2 :: []))
            "central" netTimeout []).log
    ∧ ((processZoneBatch ([] ++ ld1 :: ([] ++ ld2 :: []))
          "central" netTimeout []).sent.filter
        fun p => p.mobile == "9876543210").length = 1 :=
  (key_marked_seen_before_send "central" "9876543210" netTimeout).2
    [] [] ld1 [] ld2 [] rfl rfl

end FOC
